import Mathlib

/-!
Verification of the request-routing and endpoint-selection pipeline of a
JSON-RPC reverse proxy (Cloudflare Worker).  The definitions below are a
shallow embedding of the TypeScript sources: `RPCSelector` (both the
priority-only selector in `services/rpc_selector.ts` and the
performance-tracking selector), `ProxyService.handleRequest` /
`proxyWithRetries` / `isValidJSONRPC` / `extractChainId`
(`services/proxy_service.ts`), `CacheService.set` / `get` /
`cacheRPCResponse` / `getRPCCacheTTL`, the compression helpers
(`utils/compression.ts`), and the cache-key hashing (`utils/hash.ts`).
Impure inputs of the code (the random draw, network calls, the KV store,
the platform codecs gzip/base64 and JSON.stringify/parse) are passed in
explicitly as oracle parameters.
-/

set_option maxHeartbeats 1000000
set_option maxRecDepth 40000

/-! ## JSON values (post-`JSON.parse` JavaScript values) -/

/-- A parsed JSON value.  Numeric literals are modelled as integers
(the claims under study never depend on fractional numerics of payloads). -/
inductive JSON where
  | null
  | bool (b : Bool)
  | num (n : Int)
  | str (s : String)
  | arr (elems : List JSON)
  | obj (fields : List (String × JSON))
  deriving Repr

/-- Property access `j[k]`: only objects have (own) string keys; on any other
value (including arrays, which have no such named property here) it yields
`undefined`, modelled as `none`.  Post-`JSON.parse` objects have unique keys. -/
def jsLookup (j : JSON) (k : String) : Option JSON :=
  match j with
  | .obj fields => (fields.find? (fun f => f.1 == k)).map (fun f => f.2)
  | _ => none

/-- The JavaScript `'k' in j` test for parsed JSON values. -/
def jsHasKey (j : JSON) (k : String) : Bool :=
  match j with
  | .obj fields => fields.any (fun f => f.1 == k)
  | _ => false

/-- JavaScript truthiness of a parsed JSON value
(`false`, `0`, `""` and `null` are falsy; objects and arrays are truthy). -/
def jsTruthy (j : JSON) : Bool :=
  match j with
  | .null => false
  | .bool b => b
  | .num n => n != 0
  | .str s => s != ""
  | .arr _ => true
  | .obj _ => true

/-- `typeof v === 'object' && v !== null`: true for objects and arrays. -/
def jsIsObjectTyped (j : JSON) : Bool :=
  match j with
  | .arr _ => true
  | .obj _ => true
  | _ => false

mutual
/-- JavaScript `String(v)` coercion for parsed JSON values
(arrays join their elements with `,`, objects print `[object Object]`). -/
def jsToString (j : JSON) : String :=
  match j with
  | .null => "null"
  | .bool b => if b then "true" else "false"
  | .num n => toString n
  | .str s => s
  | .arr elems => jsJoinComma elems
  | .obj _ => "[object Object]"

/-- `Array.prototype.join(',')`: `null` elements render as the empty string. -/
def jsJoinComma (elems : List JSON) : String :=
  match elems with
  | [] => ""
  | [e] => (match e with | .null => "" | _ => jsToString e)
  | e :: rest =>
      (match e with | .null => "" | _ => jsToString e) ++ "," ++ jsJoinComma rest
end

/-- JSON string escaping used by `JSON.stringify` (quotes, backslash and
control characters). -/
def jsonEscapeChar (c : Char) : String :=
  if c = '"' then "\\\""
  else if c = '\\' then "\\\\"
  else if c.toNat < 32 then
    let hexDigit : Nat → String := fun d =>
      String.mk [(Nat.digitChar d)]
    "\\u00" ++ hexDigit (c.toNat / 16) ++ hexDigit (c.toNat % 16)
  else String.mk [c]

mutual
/-- `JSON.stringify` for parsed JSON values. -/
def jsonStringify (j : JSON) : String :=
  match j with
  | .null => "null"
  | .bool b => if b then "true" else "false"
  | .num n => toString n
  | .str s => "\"" ++ String.join (s.data.map jsonEscapeChar) ++ "\""
  | .arr elems => "[" ++ jsonStringifyList elems ++ "]"
  | .obj fields => "\x7b" ++ jsonStringifyFields fields ++ "\x7d"

def jsonStringifyList (elems : List JSON) : String :=
  match elems with
  | [] => ""
  | [e] => jsonStringify e
  | e :: rest => jsonStringify e ++ "," ++ jsonStringifyList rest

def jsonStringifyFields (fields : List (String × JSON)) : String :=
  match fields with
  | [] => ""
  | [f] => "\"" ++ f.1 ++ "\":" ++ jsonStringify f.2
  | f :: rest => "\"" ++ f.1 ++ "\":" ++ jsonStringify f.2 ++ "," ++ jsonStringifyFields rest
end

/-! ## Data model: endpoints and chains (`types`) -/

/-- An upstream RPC endpoint (`RPCEndpoint` in `types`). -/
structure RPCEndpoint where
  url : String
  name : String
  priority : ℚ
  timeout : ℕ
  maxRetries : ℕ
  isActive : Bool
  deriving Repr, DecidableEq

/-- A chain identifier: the code works with `number | string` chain ids. -/
inductive ChainId where
  | num (n : Int)
  | str (s : String)
  deriving Repr, DecidableEq

/-- One logical chain with its ordered endpoint list (`ChainConfig`). -/
structure ChainConfig where
  name : String
  symbol : String
  rpcs : List RPCEndpoint
  deriving Repr, DecidableEq

/-! ## Constants (`constants/index.ts`) -/

def DEFAULT_MAX_RETRIES : ℕ := 3
def RETRY_BASE_DELAY : ℕ := 1000
def DEFAULT_CHAIN_ID : Int := 1
def CACHE_DEFAULT_TTL : ℕ := 300
def CACHE_KEY_PREFIX : String := "rpc-proxy"

/-! ## Endpoint selectors

The repository has two selector variants with the same walk structure:
the priority-only `RPCSelector` in `services/rpc_selector.ts` (the one
imported by `ProxyService`) and the performance-tracking `RPCSelector`
(rolling latency windows).  The cumulative walk is shared, parameterised
by the weight function.  The impure `Math.random() * totalWeight` draw is
passed in as the already-drawn value `random`. -/

/-- The cumulative walk of `weightedRandomSelection`: subtract each
candidate's weight from `random` and stop at the first candidate where the
remainder is `≤ 0`; `none` when the walk exhausts the list. -/
def selectionWalk (weight : RPCEndpoint → ℚ) : List RPCEndpoint → ℚ → Option RPCEndpoint
  | [], _ => none
  | rpc :: rest, random =>
      if random - weight rpc ≤ 0 then some rpc
      else selectionWalk weight rest (random - weight rpc)

/-- `weightedRandomSelection` with the given weight function: the walk with
the last candidate as fallback (`return rpcs[rpcs.length - 1]`). -/
def weightedSelect (weight : RPCEndpoint → ℚ) (rpcs : List RPCEndpoint) (random : ℚ) :
    Option RPCEndpoint :=
  match selectionWalk weight rpcs random with
  | some rpc => some rpc
  | none => rpcs.getLast?

namespace RPCSelector

/-- `RPCSelector.weightedRandomSelection` (priority-only variant):
weights are the configured priorities. -/
def weightedRandomSelection (rpcs : List RPCEndpoint) (random : ℚ) : Option RPCEndpoint :=
  weightedSelect (fun rpc => rpc.priority) rpcs random

/-- `RPCSelector.selectRPC`: filter to active endpoints; `null` when none,
the sole candidate when exactly one, otherwise the weighted random draw. -/
def selectRPC (chainConfig : ChainConfig) (random : ℚ) : Option RPCEndpoint :=
  let activeRPCs := chainConfig.rpcs.filter (fun rpc => rpc.isActive)
  if activeRPCs.length = 0 then none
  else if activeRPCs.length = 1 then activeRPCs.head?
  else weightedRandomSelection activeRPCs random

end RPCSelector

namespace RPCSelectorPerf

/-- The process-wide `responseTimesMap`: per-endpoint rolling latency
window, passed explicitly. -/
abbrev ResponseTimes := String → List ℚ

def MAX_RESPONSE_SAMPLES : ℕ := 10

/-- `getAverageResponseTime`: `0` when no samples, else the mean. -/
def getAverageResponseTime (rt : ResponseTimes) (rpcUrl : String) : ℚ :=
  match rt rpcUrl with
  | [] => 0
  | times => times.sum / times.length

/-- The effective weight computed inside `weightedRandomSelection`:
the priority, scaled by `max(0.1, 100 / avgResponseTime)` when the average
response time is positive. -/
def perfWeight (rt : ResponseTimes) (rpc : RPCEndpoint) : ℚ :=
  let avgResponseTime := getAverageResponseTime rt rpc.url
  if 0 < avgResponseTime then rpc.priority * max (1/10) (100 / avgResponseTime)
  else rpc.priority

/-- `weightedRandomSelection` (performance-tracking variant). -/
def weightedRandomSelection (rt : ResponseTimes) (rpcs : List RPCEndpoint) (random : ℚ) :
    Option RPCEndpoint :=
  weightedSelect (perfWeight rt) rpcs random

/-- `selectRPC` (performance-tracking variant). -/
def selectRPC (rt : ResponseTimes) (chainConfig : ChainConfig) (random : ℚ) :
    Option RPCEndpoint :=
  let activeRPCs := chainConfig.rpcs.filter (fun rpc => rpc.isActive)
  if activeRPCs.length = 0 then none
  else if activeRPCs.length = 1 then activeRPCs.head?
  else weightedRandomSelection rt activeRPCs random

/-- `recordResponseTime`: append the sample to the endpoint's window,
evicting the oldest when the window exceeds `MAX_RESPONSE_SAMPLES`.
Note: this method has no call sites anywhere in the repository. -/
def recordResponseTime (rt : ResponseTimes) (rpcUrl : String) (responseTime : ℚ) :
    ResponseTimes :=
  fun url =>
    if url = rpcUrl then
      let times := rt rpcUrl ++ [responseTime]
      if MAX_RESPONSE_SAMPLES < times.length then times.drop 1 else times
    else rt url

end RPCSelectorPerf

/-! ## The proxy retry loop (`ProxyService.proxyWithRetries`)

Selection and the upstream call are impure; they are passed as per-attempt
oracles.  The trace records the number of upstream calls issued, the backoff
sleeps performed (in ms, in order), the final outcome, and every latency
sample recorded through `recordResponseTime` (the source contains no call to
it, so no iteration appends to `recorded`). -/

/-- Result of one `makeRPCCall`: a 2xx response with a body, or a failure
(network error, timeout, or non-2xx status converted to a thrown error). -/
inductive CallResult where
  | ok (body : String)
  | fail (message : String)
  deriving Repr, DecidableEq

inductive ProxyOutcome where
  | success (body : String)
  | networkError (message : String)
  deriving Repr, DecidableEq

structure ProxyTrace where
  upstreamAttempts : ℕ
  delays : List ℕ
  outcome : ProxyOutcome
  recorded : List (String × ℚ)
  deriving Repr, DecidableEq

/-- One pass of the `for (attempt = 0; attempt <= maxRetries; attempt++)`
loop, with `fuel = maxRetries + 1 - attempt` remaining iterations.  A `none`
selection throws `'No RPC endpoint available'` (caught as a failed attempt
without an upstream call); a failed attempt sleeps
`RETRY_BASE_DELAY * 2 ^ attempt` unless it was the last. -/
def proxyLoop (sel : ℕ → Option RPCEndpoint) (call : ℕ → RPCEndpoint → CallResult)
    (maxRetries : ℕ) : ℕ → ℕ → Option String → ProxyTrace
  | 0, _, lastError =>
      ⟨0, [], .networkError (lastError.getD "All RPC endpoints failed"), []⟩
  | fuel + 1, attempt, _lastError =>
      match sel attempt with
      | none =>
          let delay := if attempt < maxRetries then [RETRY_BASE_DELAY * 2 ^ attempt] else []
          let rest := proxyLoop sel call maxRetries fuel (attempt + 1)
            (some "No RPC endpoint available")
          ⟨rest.upstreamAttempts, delay ++ rest.delays, rest.outcome, rest.recorded⟩
      | some rpc =>
          match call attempt rpc with
          | .ok body => ⟨1, [], .success body, []⟩
          | .fail message =>
              let delay := if attempt < maxRetries then [RETRY_BASE_DELAY * 2 ^ attempt] else []
              let rest := proxyLoop sel call maxRetries fuel (attempt + 1) (some message)
              ⟨rest.upstreamAttempts + 1, delay ++ rest.delays, rest.outcome, rest.recorded⟩

/-- `ProxyService.proxyWithRetries`: run the loop for `maxRetries + 1`
attempts starting with no recorded failure. -/
def proxyWithRetries (sel : ℕ → Option RPCEndpoint) (call : ℕ → RPCEndpoint → CallResult)
    (maxRetries : ℕ) : ProxyTrace :=
  proxyLoop sel call maxRetries (maxRetries + 1) 0 none

/-! ## JSON-RPC validation (`ProxyService.isValidJSONRPC`) -/

/-- `isValidJSONRPC`: `request && typeof request === 'object'` (arrays are
also `'object'`-typed but fail the field checks), `jsonrpc === '2.0'`,
`method` a non-empty string, `'id' in request`, and `id` null, string or
number.  The `params` field is not inspected. -/
def isValidJSONRPC (request : JSON) : Bool :=
  jsTruthy request && jsIsObjectTyped request
    && (match jsLookup request "jsonrpc" with
        | some (.str v) => v == "2.0"
        | _ => false)
    && (match jsLookup request "method" with
        | some (.str s) => decide (0 < s.length)
        | _ => false)
    && jsHasKey request "id"
    && (match jsLookup request "id" with
        | some .null => true
        | some (.str _) => true
        | some (.num _) => true
        | _ => false)

/-- The id echoed on an invalid request: `(request as any)?.id || null`
(a falsy id — `0`, `""`, `false`, `null` — is replaced by `null`). -/
def echoIdOrNull (request : JSON) : JSON :=
  match jsLookup request "id" with
  | some v => if jsTruthy v then v else .null
  | none => .null

/-- `jsonRPCRequest.id` as used for the later error envelopes (the request
has already passed validation there, so the key is present). -/
def idField (request : JSON) : JSON :=
  (jsLookup request "id").getD .null

/-! ## `parseInt(s, 10)` (JavaScript semantics) -/

def jsWhitespace (c : Char) : Bool :=
  c = ' ' || c = '\t' || c = '\n' || c = '\r' || c = '\x0b' || c = '\x0c'

/-- Maximal decimal-digit prefix, `none` when empty (`NaN`). -/
def parseDigits (cs : List Char) : Option ℕ :=
  let ds := cs.takeWhile (fun c => c.isDigit)
  if ds.isEmpty then none
  else some (ds.foldl (fun acc c => acc * 10 + (c.toNat - 48)) 0)

/-- `parseInt(s, 10)`: skip leading whitespace, optional sign, maximal digit
run; `none` models `NaN`. -/
def parseIntJS (s : String) : Option Int :=
  match s.data.dropWhile jsWhitespace with
  | '-' :: rest => (parseDigits rest).map (fun n => -(n : Int))
  | '+' :: rest => (parseDigits rest).map (fun n => (n : Int))
  | rest => (parseDigits rest).map (fun n => (n : Int))

/-! ## Chain-id extraction (`ProxyService.extractChainId`)

The code matches `pathname` against `/\/(?:rpc\/)?([^\/]+)/`:
leftmost `/`, an optional greedy `rpc/` prefix (with backtracking), then a
maximal non-empty run of non-`/` characters (the capture). -/

/-- Try the regex at one position, `rest` being the characters after a `/`. -/
def segmentAfterSlash (rest : List Char) : Option (List Char) :=
  let direct : Option (List Char) :=
    match rest with
    | c :: _ => if c ≠ '/' then some (rest.takeWhile (fun d => d ≠ '/')) else none
    | [] => none
  match rest with
  | 'r' :: 'p' :: 'c' :: '/' :: tail =>
      match tail with
      | c :: _ => if c ≠ '/' then some (tail.takeWhile (fun d => d ≠ '/')) else direct
      | [] => direct
  | _ => direct

/-- Leftmost match of the path pattern; yields the captured group. -/
def pathScan : List Char → Option (List Char)
  | [] => none
  | '/' :: rest =>
      match segmentAfterSlash rest with
      | some seg => some seg
      | none => pathScan rest
  | _ :: rest => pathScan rest

/-- Numeric-or-string coercion applied to every extracted candidate:
`parseInt` when it yields a number, else the raw string. -/
def coerceChainId (s : String) : ChainId :=
  match parseIntJS s with
  | some n => .num n
  | none => .str s

/-- Scan array params for the first `typeof param === 'object' && param !==
null` element with a `chainId` key; coerce `String(param.chainId)`. -/
def scanParamsForChainId : List JSON → Option ChainId
  | [] => some (.num DEFAULT_CHAIN_ID)
  | p :: rest =>
      if jsIsObjectTyped p then
        match jsLookup p "chainId" with
        | some v => some (coerceChainId (jsToString v))
        | none => scanParamsForChainId rest
      else scanParamsForChainId rest

/-- The inbound HTTP request as the dispatcher sees it: the URL `pathname`,
the two query parameters consulted, and the parsed JSON-RPC body. -/
structure InboundRequest where
  pathname : String
  queryChainId : Option String
  queryChain : Option String
  body : JSON

/-- `url.searchParams.get('chainId') || url.searchParams.get('chain')`
(the empty string is falsy and falls through to the second parameter). -/
def queryChainParam (req : InboundRequest) : Option String :=
  match req.queryChainId with
  | some s => if s ≠ "" then some s else req.queryChain
  | none => req.queryChain

/-- The body-params stage of the extraction: scan an array-typed `params`
for a `chainId` field, else the configured default. -/
def paramsChainFallback (jsonRPCRequest : JSON) : Option ChainId :=
  match jsLookup jsonRPCRequest "params" with
  | some (.arr ps) => scanParamsForChainId ps
  | _ => some (.num DEFAULT_CHAIN_ID)

/-- `ProxyService.extractChainId`: URL path capture first; else
`searchParams.get('chainId') || searchParams.get('chain')` when truthy;
else a `chainId` field of an object-typed element of array `params`;
else `DEFAULT_CHAIN_ID`.  The `number | string | null` return type is
modelled as `Option ChainId`; no branch produces `none`. -/
def extractChainId (req : InboundRequest) (jsonRPCRequest : JSON) : Option ChainId :=
  match pathScan req.pathname.data with
  | some seg => some (coerceChainId (String.mk seg))
  | none =>
    match queryChainParam req with
    | some s =>
        if s ≠ "" then some (coerceChainId s)
        else paramsChainFallback jsonRPCRequest
    | none => paramsChainFallback jsonRPCRequest

/-- The `if (!chainId)` truthiness guard: the only falsy non-null chain ids
are the number `0` and the empty string. -/
def chainIdFalsy : ChainId → Bool
  | .num n => n == 0
  | .str s => s == ""

/-- The guard of the `Chain not supported` rejection at the
chain-id-resolution step (`if (!chainId)` on the extraction result). -/
def resolutionRejects (req : InboundRequest) (jsonRPCRequest : JSON) : Bool :=
  match extractChainId req jsonRPCRequest with
  | none => true
  | some c => chainIdFalsy c

def chainIdToString : ChainId → String
  | .num n => toString n
  | .str s => s

/-! ## Cache-key hashing (`utils/hash.ts`) -/

/-- 32-bit unsigned view of a JavaScript bitwise-op result. -/
def u32 (n : Int) : ℕ := (n % (2 ^ 32 : Int)).toNat

/-- Signed 32-bit value (`ToInt32`) of an unsigned word. -/
def s32 (u : ℕ) : Int :=
  let v : ℕ := u % 2 ^ 32
  if v < 2 ^ 31 then (v : Int) else (v : Int) - 2 ^ 32

/-- `hash ^= c` (32-bit signed xor). -/
def jsXor32 (a : Int) (c : ℕ) : Int := s32 (Nat.xor (u32 a) (c % 2 ^ 32))

/-- `a << k` (32-bit signed shift). -/
def jsShl32 (a : Int) (k : ℕ) : Int := s32 (u32 a <<< k)

/-- One FNV-1a loop iteration: xor in the char code, then the shift-add
mixing `hash += (h<<1)+(h<<4)+(h<<7)+(h<<8)+(h<<24)` (the sum itself is
exact; it is reduced to 32 bits by the next bitwise operation). -/
def fnv1aStep (hash : Int) (c : ℕ) : Int :=
  let h := jsXor32 hash c
  h + (jsShl32 h 1 + jsShl32 h 4 + jsShl32 h 7 + jsShl32 h 8 + jsShl32 h 24)

/-- `fnv1aHash`: fold over the char codes from offset basis 2166136261,
then `(hash >>> 0).toString(16)`. -/
def fnv1aHash (str : String) : String :=
  let hash := str.data.foldl (fun h c => fnv1aStep h c.toNat) (2166136261 : Int)
  String.mk (Nat.toDigits 16 (u32 hash))

/-- Per-parameter rendering inside `generateCacheKey`: `null` renders as
`'null'`, object-typed values via `JSON.stringify`, the rest via `String`. -/
def paramToKeyString (p : JSON) : String :=
  match p with
  | .null => "null"
  | .obj _ => jsonStringify p
  | .arr _ => jsonStringify p
  | _ => jsToString p

/-- `generateCacheKey(chainId, method, params)`: plain concatenation for
empty params, else hash of the `|`-joined rendered params. -/
def generateCacheKey (chainId : String) (method : String) (params : List JSON) : String :=
  if params.length = 0 then chainId ++ ":" ++ method
  else
    chainId ++ ":" ++ method ++ ":"
      ++ fnv1aHash (String.intercalate "|" (params.map paramToKeyString))

/-- `jsonRPCRequest.params || []`: a falsy `params` value (absent, `null`,
`0`, `""`, `false`) is replaced by the empty array. -/
def paramsOrEmpty (request : JSON) : JSON :=
  match jsLookup request "params" with
  | some p => if jsTruthy p then p else .arr []
  | none => .arr []

/-- The RPC cache key `'rpc:' + generateCacheKey(...)` over the raw params
value.  A truthy non-array `params` makes `generateCacheKey` throw
(`params.map` is not a function); that is modelled as `none`. -/
def rpcCacheKey (chainId : String) (method : String) (params : JSON) : Option String :=
  match params with
  | .arr ps => some ("rpc:" ++ generateCacheKey chainId method ps)
  | _ => none

def methodField (request : JSON) : String :=
  match jsLookup request "method" with
  | some (.str s) => s
  | _ => ""

/-! ## Compression (`utils/compression.ts`)

`compress`/`decompress` are the platform `CompressionStream('gzip')` and
`atob`/`btoa` primitives; they enter the embedding as an abstract codec:
`gzipB64` is `btoa(gzip(...))` and `gunzipB64` is `decompress(atob(...))`,
with `none` modelling a thrown decode/decompress error.  Likewise
`stringifyEntry`/`parseEntry` are `JSON.stringify`/`JSON.parse` on the
cache-entry envelope (`parseEntry none` models a parse exception). -/

def COMPRESSION_MIN_SIZE : ℕ := 1024

/-- `shouldCompress(data, minSize = 1024)`; callers always use the default
minimum size. -/
def shouldCompress (data : String) : Bool :=
  COMPRESSION_MIN_SIZE ≤ data.length

/-- A cache entry envelope (`CacheEntry<T>` with `T` a JSON payload):
payload, write timestamp (ms) and TTL (seconds). -/
structure CacheEntry where
  data : JSON
  timestamp : ℕ
  ttl : ℕ
  deriving Repr

/-- The platform codecs used by the cache layer. -/
structure Codecs where
  stringifyEntry : CacheEntry → String
  parseEntry : String → Option CacheEntry
  gzipB64 : String → String
  gunzipB64 : String → Option String

/-- `compressForCache`: return small data unchanged, else gzip + base64. -/
def compressForCache (c : Codecs) (data : String) : String :=
  if ¬ shouldCompress data then data
  else c.gzipB64 data

/-- The JavaScript `String.prototype.startsWith`, modelled structurally. -/
def strStartsWith (s pre : String) : Bool :=
  pre.data.isPrefixOf s.data

/-- `decompressFromCache`: data starting with a raw JSON delimiter is
returned unchanged; otherwise base64-decode + gunzip is attempted and any
failure returns the raw stored string unchanged. -/
def decompressFromCache (c : Codecs) (data : String) : String :=
  if strStartsWith data "\x7b" || strStartsWith data "[" then data
  else
    match c.gunzipB64 data with
    | some decompressed => decompressed
    | none => data

/-! ## Cache layer (`CacheService`) -/

/-- One record in the opaque KV store: the stored text, the `compressed`
sidecar metadata flag, and the store-level backstop TTL. -/
structure KVRecord where
  value : String
  compressed : Bool
  expirationTtl : ℕ

/-- The KV namespace, as a partial map from full keys to records. -/
def KVStore : Type := String → Option KVRecord

def kvPut (store : KVStore) (key : String) (record : KVRecord) : KVStore :=
  fun k => if k = key then some record else store k

def kvDelete (store : KVStore) (key : String) : KVStore :=
  fun k => if k = key then none else store k

/-- `generateKey`: prefix every key with the configured namespace. -/
def cacheFullKey (key : String) : String := CACHE_KEY_PREFIX ++ ":" ++ key

/-- `CacheService.set(key, value, ttl)`: wrap the payload with the write
timestamp and `ttl || defaultTTL`, serialize, compress when the serialized
form reaches the threshold, and store together with the `compressed` flag
and the store-level TTL. -/
def cacheSet (c : Codecs) (store : KVStore) (now : ℕ) (key : String) (value : JSON)
    (ttl : ℕ) : KVStore :=
  let cacheKey := cacheFullKey key
  let expirationTtl := if ttl = 0 then CACHE_DEFAULT_TTL else ttl
  let entry : CacheEntry := ⟨value, now, expirationTtl⟩
  let serialized := c.stringifyEntry entry
  let dataToStore := if shouldCompress serialized then compressForCache c serialized
                     else serialized
  let compressed := shouldCompress serialized
  kvPut store cacheKey ⟨dataToStore, compressed, expirationTtl⟩

/-- `CacheService.get(key)`: fetch the record and its metadata, decompress
when flagged, parse the envelope, and apply the expiry check
`entry.timestamp + entry.ttl * 1000 < now` (expired entries are actively
deleted and reported as a miss).  A parse failure is swallowed by the
outer catch and reported as a miss.  Returns the result together with the
store as left behind. -/
def cacheGet (c : Codecs) (store : KVStore) (now : ℕ) (key : String) :
    Option JSON × KVStore :=
  let cacheKey := cacheFullKey key
  match store cacheKey with
  | none => (none, store)
  | some record =>
      -- `if (!result.value)`: a falsy (empty) stored string also reports a miss
      if record.value = "" then (none, store)
      else
      let cached := if record.compressed then decompressFromCache c record.value
                    else record.value
      match c.parseEntry cached with
      | none => (none, store)
      | some entry =>
          if entry.timestamp + entry.ttl * 1000 < now then
            (none, kvDelete store cacheKey)
          else (some entry.data, store)

/-- The whitelist of methods safe to cache (`cacheRPCResponse`). -/
def cacheableMethods : List String :=
  ["eth_blockNumber", "eth_getBalance", "eth_getBlockByNumber", "eth_getBlockByHash",
   "eth_getTransactionByHash", "eth_getTransactionReceipt", "eth_call", "eth_estimateGas"]

/-- The per-method TTL map of `getRPCCacheTTL`. -/
def rpcTTLMap : List (String × ℕ) :=
  [("eth_blockNumber", 5), ("eth_getBalance", 30), ("eth_getBlockByNumber", 300),
   ("eth_getBlockByHash", 3600), ("eth_getTransactionByHash", 3600),
   ("eth_getTransactionReceipt", 3600), ("eth_call", 60), ("eth_estimateGas", 30)]

/-- `getRPCCacheTTL`: the mapped TTL, defaulting to the global default.
(Every TTL in the map is nonzero, so `ttlMap[method] || DEFAULT_TTL`
coincides with lookup-with-default.) -/
def getRPCCacheTTL (method : String) : ℕ :=
  match (rpcTTLMap.find? (fun e => e.1 == method)).map (fun e => e.2) with
  | some ttl => ttl
  | none => CACHE_DEFAULT_TTL

/-- `cacheRPCResponse`: only whitelisted methods are written; the key is
`'rpc:' + generateCacheKey(...)` and the TTL is method-specific.  `none`
models the `generateCacheKey` TypeError on a truthy non-array `params`
(which never occurs for whitelisted writes issued with array params). -/
def cacheRPCResponse (c : Codecs) (store : KVStore) (now : ℕ) (chainId : String)
    (method : String) (params : JSON) (response : JSON) : Option KVStore :=
  if ¬ (cacheableMethods.contains method) then some store
  else
    match rpcCacheKey chainId method params with
    | none => none
    | some cacheKey => some (cacheSet c store now cacheKey response (getRPCCacheTTL method))

/-- The caching step inside `ProxyService.makeRPCCall` on a parsed upstream
response body: only a response with `jsonrpc === '2.0'` and an `id` key is
treated as a JSON-RPC response, and it is written through only when a cache
service is configured and `!jsonResponse.error` (the error field is falsy). -/
def makeRPCCallCacheStep (c : Codecs) (store : KVStore) (now : ℕ) (cacheConfigured : Bool)
    (chainId : ChainId) (request : JSON) (jsonResponse : JSON) : Option KVStore :=
  if (match jsLookup jsonResponse "jsonrpc" with
      | some (.str v) => v == "2.0"
      | _ => false) && jsHasKey jsonResponse "id" then
    if cacheConfigured && ¬ jsTruthy ((jsLookup jsonResponse "error").getD .null) then
      cacheRPCResponse c store now (chainIdToString chainId) (methodField request)
        (paramsOrEmpty request) jsonResponse
    else some store
  else some store

/-! ## The dispatcher (`ProxyService.handleRequest`)

The pipeline on an already-parsed body: validate, resolve the chain id,
load the chain config (oracle `getChainConfig`), check for active
endpoints, consult the cache (oracle `cacheLookup`, when a cache service
is configured), then run the retry loop.  The trace counts cache lookups
and upstream attempts to witness the ordering of the stages. -/

inductive Outcome where
  | invalidRequest (echoedId : JSON)
  | chainNotSupported (id : JSON)
  | noHealthyRPCs (id : JSON)
  | internalError
  | cacheHit (response : JSON)
  | proxied (result : ProxyOutcome)

structure HandleTrace where
  outcome : Outcome
  cacheLookups : ℕ
  upstreamAttempts : ℕ

def handleRequest (req : InboundRequest) (getChainConfig : ChainId → Option ChainConfig)
    (cacheLookup : Option (String → Option JSON)) (sel : ℕ → Option RPCEndpoint)
    (call : ℕ → RPCEndpoint → CallResult) : HandleTrace :=
  let body := req.body
  if ¬ isValidJSONRPC body then
    ⟨.invalidRequest (echoIdOrNull body), 0, 0⟩
  else if resolutionRejects req body then
    ⟨.chainNotSupported (idField body), 0, 0⟩
  else
    match extractChainId req body with
    | none => ⟨.chainNotSupported (idField body), 0, 0⟩
    | some chainId =>
      match getChainConfig chainId with
      | none => ⟨.chainNotSupported (idField body), 0, 0⟩
      | some chainConfig =>
        if (chainConfig.rpcs.filter (fun rpc => rpc.isActive)).length = 0 then
          ⟨.noHealthyRPCs (idField body), 0, 0⟩
        else
          match cacheLookup with
          | some cget =>
              match rpcCacheKey (chainIdToString chainId) (methodField body)
                  (paramsOrEmpty body) with
              | none => ⟨.internalError, 0, 0⟩
              | some cacheKey =>
                  match cget cacheKey with
                  | some cached => ⟨.cacheHit cached, 1, 0⟩
                  | none =>
                      let t := proxyWithRetries sel call DEFAULT_MAX_RETRIES
                      ⟨.proxied t.outcome, 1, t.upstreamAttempts⟩
          | none =>
              let t := proxyWithRetries sel call DEFAULT_MAX_RETRIES
              ⟨.proxied t.outcome, 0, t.upstreamAttempts⟩

/-! ## Claim-side definitions (formalisations of the spec's wording,
for comparison against the embedded code) -/

/-- The effective weight as the spec words it: `priority` alone when the
endpoint has no recorded latency samples, else
`priority * max(0.1, 100 / avg_latency_ms)`. -/
def claimEffectiveWeight (rt : RPCSelectorPerf.ResponseTimes) (rpc : RPCEndpoint) : ℚ :=
  if rt rpc.url = [] then rpc.priority
  else rpc.priority * max (1/10) (100 / RPCSelectorPerf.getAverageResponseTime rt rpc.url)

/-- The amended acceptance shape for C3: an object with `jsonrpc == "2.0"`,
a non-empty string `method`, and an `id` key holding a string, number or
null.  (`params` is not inspected.) -/
def claimAcceptedShape (j : JSON) : Bool :=
  match j with
  | .obj _ =>
      (match jsLookup j "jsonrpc" with
        | some (.str v) => v == "2.0"
        | _ => false)
        && (match jsLookup j "method" with
            | some (.str s) => decide (0 < s.length)
            | _ => false)
        && jsHasKey j "id"
        && (match jsLookup j "id" with
            | some .null => true
            | some (.str _) => true
            | some (.num _) => true
            | _ => false)
  | _ => false

/-- The claim's stated acceptance predicate for C3, including its
`params is an array or absent` clause (the code does not enforce it). -/
def claimParamsArrayOrAbsent (j : JSON) : Bool :=
  match jsLookup j "params" with
  | none => true
  | some (.arr _) => true
  | some _ => false

def claimC3Shape (j : JSON) : Bool :=
  claimAcceptedShape j && claimParamsArrayOrAbsent j

/-- The active-endpoint list (`chainConfig.rpcs.filter(rpc => rpc.isActive)`). -/
def activeRPCs (chainConfig : ChainConfig) : List RPCEndpoint :=
  chainConfig.rpcs.filter (fun rpc => rpc.isActive)

/-! ## Concrete fixtures used by witnesses and counterexamples -/

def epA : RPCEndpoint := ⟨"https://rpc-a.example", "A", 1, 5000, 3, true⟩
def epB : RPCEndpoint := ⟨"https://rpc-b.example", "B", 1, 5000, 3, true⟩
def epOff : RPCEndpoint := ⟨"https://rpc-off.example", "Off", 1, 5000, 3, false⟩

def config2 : ChainConfig := ⟨"Ethereum", "ETH", [epA, epB]⟩
def configInactive : ChainConfig := ⟨"Ethereum", "ETH", [epOff]⟩

def rtEmpty : RPCSelectorPerf.ResponseTimes := fun _ => []

def validBody : JSON :=
  .obj [("jsonrpc", .str "2.0"), ("method", .str "eth_blockNumber"), ("id", .num 1)]

def reqChain1 : InboundRequest := ⟨"/1", none, none, validBody⟩

/-- C3 counterexample input: shape-valid body whose `params` is an object. -/
def bodyParamsObj : JSON :=
  .obj [("jsonrpc", .str "2.0"), ("method", .str "eth_blockNumber"), ("id", .num 1),
        ("params", .obj [])]

/-- C3 counterexample input: wrong version with the extractable id `0`. -/
def bodyVersion1Id0 : JSON :=
  .obj [("jsonrpc", .str "1.0"), ("method", .str "eth_blockNumber"), ("id", .num 0)]

def reqVersion1Id0 : InboundRequest := ⟨"/1", none, none, bodyVersion1Id0⟩

def entry60 : CacheEntry := ⟨.null, 0, 60⟩
def entry1s : CacheEntry := ⟨.str "payload", 0, 1⟩
def bigA : String := String.mk (List.replicate 1024 'a')

/-- A concrete platform-codec instance whose serialized entries are short
(uncompressed path). -/
def codecSmall : Codecs :=
  ⟨fun _ => "AB",
   fun s => if s = "AB" then some entry60 else if s = "E1" then some entry1s else none,
   fun _ => "G",
   fun s => if s = "G" then some bigA else none⟩

/-- A concrete platform-codec instance whose serialized entries reach the
compression threshold (compressed path). -/
def codecLarge : Codecs :=
  ⟨fun _ => bigA,
   fun s => if s = bigA then some entry60 else none,
   fun _ => "G",
   fun s => if s = "G" then some bigA else none⟩

def emptyStore : KVStore := fun _ => none

/-- A store holding one uncompressed entry written at t=0 with ttl 1s. -/
def storeE1 : KVStore :=
  fun k => if k = cacheFullKey "k" then some ⟨"E1", false, 1⟩ else none

def request7 : JSON :=
  .obj [("jsonrpc", .str "2.0"), ("method", .str "eth_blockNumber"), ("id", .num 1)]

def request7raw : JSON :=
  .obj [("jsonrpc", .str "2.0"), ("method", .str "eth_sendRawTransaction"),
        ("id", .num 1), ("params", .arr [.str "0xdead"])]

def response7 : JSON :=
  .obj [("jsonrpc", .str "2.0"), ("id", .num 1), ("result", .str "0x10")]

/-! ## Shared lemmas about the cumulative selection walk -/

theorem selectionWalk_mem (weight : RPCEndpoint → ℚ) :
    ∀ (l : List RPCEndpoint) (r : ℚ) (e : RPCEndpoint),
      selectionWalk weight l r = some e → e ∈ l := by
  intro l
  induction l with
  | nil => intro r e h; simp [selectionWalk] at h
  | cons a rest ih =>
      intro r e h
      by_cases hc : r - weight a ≤ 0
      · simp [selectionWalk, hc] at h
        simp [h]
      · simp [selectionWalk, hc] at h
        exact List.mem_cons_of_mem a (ih _ _ h)

theorem exists_getLast?_mem :
    ∀ (l : List RPCEndpoint), l ≠ [] → ∃ e, e ∈ l ∧ l.getLast? = some e := by
  intro l
  induction l with
  | nil => intro h; exact absurd rfl h
  | cons a rest ih =>
    intro _
    cases rest with
    | nil => exact ⟨a, by simp, rfl⟩
    | cons b t =>
      obtain ⟨e, he, hl⟩ := ih (by simp)
      exact ⟨e, by simp [he], by rw [List.getLast?_cons_cons]; exact hl⟩

/-- The walk stops at the first index whose cumulative weight reaches the
draw, whenever the draw lies in `[0, totalWeight)`. -/
theorem selectionWalk_first_reach (weight : RPCEndpoint → ℚ) :
    ∀ (l : List RPCEndpoint) (r : ℚ), 0 ≤ r → r < (l.map weight).sum →
      ∃ i, ∃ hi : i < l.length,
        selectionWalk weight l r = some (l.get ⟨i, hi⟩) ∧
        r ≤ ((l.map weight).take (i + 1)).sum ∧
        ∀ j, j < i → ((l.map weight).take (j + 1)).sum < r := by
  intro l
  induction l with
  | nil =>
      intro r h0 hs
      simp at hs
      exact absurd hs (not_lt.mpr h0)
  | cons a rest ih =>
    intro r h0 hs
    by_cases hle : r - weight a ≤ 0
    · refine ⟨0, Nat.succ_pos _, ?_, ?_, ?_⟩
      · simp [selectionWalk, hle]
      · simpa using sub_nonpos.mp hle
      · intro j hj; exact absurd hj (Nat.not_lt_zero j)
    · push_neg at hle
      have h0' : 0 ≤ r - weight a := le_of_lt hle
      have hs' : r - weight a < (rest.map weight).sum := by
        simp only [List.map_cons, List.sum_cons] at hs
        linarith
      obtain ⟨i, hi, hwalk, hub, hlb⟩ := ih (r - weight a) h0' hs'
      have hnle : ¬ (r - weight a ≤ 0) := not_le.mpr hle
      refine ⟨i + 1, Nat.succ_lt_succ hi, ?_, ?_, ?_⟩
      · simp [selectionWalk, hnle, hwalk]
      · simp only [List.map_cons, List.take_succ_cons, List.sum_cons]
        linarith
      · intro j hj
        cases j with
        | zero =>
            simp only [List.map_cons, List.take_succ_cons, List.take_zero,
              List.sum_cons, List.sum_nil]
            linarith
        | succ k =>
            have hk : k < i := Nat.lt_of_succ_lt_succ hj
            have := hlb k hk
            simp only [List.map_cons, List.take_succ_cons, List.sum_cons]
            linarith

theorem selectionWalk_nil (weight : RPCEndpoint → ℚ) (r : ℚ) :
    selectionWalk weight [] r = none := rfl

theorem selectionWalk_cons (weight : RPCEndpoint → ℚ) (a : RPCEndpoint)
    (rest : List RPCEndpoint) (r : ℚ) :
    selectionWalk weight (a :: rest) r =
      if r - weight a ≤ 0 then some a else selectionWalk weight rest (r - weight a) := rfl

/-- With positive weights, a draw at or above the total weight yields the
last candidate (through the walk or through the explicit fallback). -/
theorem weightedSelect_fallback (weight : RPCEndpoint → ℚ) :
    ∀ (l : List RPCEndpoint) (r : ℚ), (∀ e ∈ l, 0 < weight e) →
      (l.map weight).sum ≤ r → weightedSelect weight l r = l.getLast? := by
  intro l
  induction l with
  | nil => intro r _ _; rfl
  | cons a rest ih =>
    intro r hw hs
    cases rest with
    | nil =>
      by_cases hc : r - weight a ≤ 0
      · simp [weightedSelect, selectionWalk_cons, hc]
      · simp [weightedSelect, selectionWalk_cons, selectionWalk_nil, hc]
    | cons b t =>
      have hsum : (List.map weight (b :: t)).sum ≤ r - weight a := by
        simp only [List.map_cons, List.sum_cons] at hs ⊢
        linarith
      have hpos : 0 < (List.map weight (b :: t)).sum := by
        have hb : 0 < weight b := hw b (by simp)
        have ht : 0 ≤ (t.map weight).sum := by
          apply List.sum_nonneg
          intro x hx
          obtain ⟨e, he, rfl⟩ := List.mem_map.mp hx
          exact le_of_lt (hw e (by simp [he]))
        simp only [List.map_cons, List.sum_cons]
        linarith
      have hc : ¬ (r - weight a ≤ 0) := by
        have : 0 < r - weight a := lt_of_lt_of_le hpos hsum
        linarith
      have hstep : selectionWalk weight (a :: b :: t) r =
          selectionWalk weight (b :: t) (r - weight a) := by
        rw [selectionWalk_cons, if_neg hc]
      have ihh := ih (r - weight a) (fun e he => hw e (by simp [he])) hsum
      unfold weightedSelect at ihh ⊢
      rw [hstep, List.getLast?_cons_cons]
      exact ihh

/-- The selection is total on nonempty candidate lists and always returns a
member of the list. -/
theorem weightedSelect_total (weight : RPCEndpoint → ℚ) (l : List RPCEndpoint) (r : ℚ)
    (hne : l ≠ []) : ∃ e, e ∈ l ∧ weightedSelect weight l r = some e := by
  cases hwk : selectionWalk weight l r with
  | some e => exact ⟨e, selectionWalk_mem weight l r e hwk, by simp [weightedSelect, hwk]⟩
  | none =>
      obtain ⟨e, he, hl⟩ := exists_getLast?_mem l hne
      exact ⟨e, he, by simp [weightedSelect, hwk, hl]⟩

theorem getAvg_nil (rt : RPCSelectorPerf.ResponseTimes) (url : String)
    (h : rt url = []) : RPCSelectorPerf.getAverageResponseTime rt url = 0 := by
  unfold RPCSelectorPerf.getAverageResponseTime
  rw [h]

theorem getAvg_cons (rt : RPCSelectorPerf.ResponseTimes) (url : String) (t : ℚ) (ts : List ℚ)
    (h : rt url = t :: ts) :
    RPCSelectorPerf.getAverageResponseTime rt url = (t :: ts).sum / (t :: ts).length := by
  unfold RPCSelectorPerf.getAverageResponseTime
  rw [h]

/-- On endpoints whose recorded samples (if any) have positive total, the
weight computed by the code agrees with the spec's effective-weight formula. -/
theorem perfWeight_eq_claim (rt : RPCSelectorPerf.ResponseTimes) (rpc : RPCEndpoint)
    (h : rt rpc.url ≠ [] → 0 < (rt rpc.url).sum) :
    RPCSelectorPerf.perfWeight rt rpc = claimEffectiveWeight rt rpc := by
  by_cases hrt : rt rpc.url = []
  · have havg := getAvg_nil rt rpc.url hrt
    unfold RPCSelectorPerf.perfWeight claimEffectiveWeight
    simp [havg, hrt]
  · obtain ⟨t, ts, hrt2⟩ : ∃ t ts, rt rpc.url = t :: ts := by
      cases hx : rt rpc.url with
      | nil => exact absurd hx hrt
      | cons t ts => exact ⟨t, ts, rfl⟩
    have hsum : 0 < (rt rpc.url).sum := h hrt
    have havg : 0 < RPCSelectorPerf.getAverageResponseTime rt rpc.url := by
      rw [getAvg_cons rt rpc.url t ts hrt2]
      apply div_pos
      · rw [← hrt2]; exact hsum
      · have hl : 0 < (t :: ts).length := Nat.succ_pos _
        exact_mod_cast hl
    unfold RPCSelectorPerf.perfWeight claimEffectiveWeight
    simp [havg, hrt]

theorem perfWeight_pos (rt : RPCSelectorPerf.ResponseTimes) (rpc : RPCEndpoint)
    (h : 0 < rpc.priority) : 0 < RPCSelectorPerf.perfWeight rt rpc := by
  unfold RPCSelectorPerf.perfWeight
  by_cases havg : 0 < RPCSelectorPerf.getAverageResponseTime rt rpc.url
  · simp only [havg, if_true]
    exact mul_pos h (lt_of_lt_of_le (by norm_num) (le_max_left (1/10) _))
  · simp only [havg, if_false]
    exact h

theorem selectRPCPerf_eq_weightedSelect (rt : RPCSelectorPerf.ResponseTimes)
    (config : ChainConfig) (r2 : ℚ) (hlen : 2 ≤ (activeRPCs config).length) :
    RPCSelectorPerf.selectRPC rt config r2 =
      weightedSelect (RPCSelectorPerf.perfWeight rt) (activeRPCs config) r2 := by
  unfold activeRPCs at hlen ⊢
  unfold RPCSelectorPerf.selectRPC RPCSelectorPerf.weightedRandomSelection
  have h1 : ¬ ((config.rpcs.filter (fun rpc => rpc.isActive)).length = 0) := by omega
  have h2 : ¬ ((config.rpcs.filter (fun rpc => rpc.isActive)).length = 1) := by omega
  simp [h1, h2]

/-- C1: for every chain config with at least two active endpoints and every
draw `r` in `[0, totalWeight)`, the performance-tracking selector returns
the first active candidate (in list order) whose cumulative effective
weight reaches `r`, where the effective weight is
`priority * max(0.1, 100 / avg)` for candidates with recorded samples and
`priority` for candidates without; moreover every draw returns a member of
the active-candidate list, and a draw at or past the total weight returns
the last candidate as fallback.  (Samples, when present, are assumed to
have positive total, as produced by recorded latencies.) -/
theorem selectRPC_cumulative_draw (rt : RPCSelectorPerf.ResponseTimes)
    (config : ChainConfig) (r : ℚ)
    (hsam : ∀ rpc ∈ activeRPCs config, rt rpc.url ≠ [] → 0 < (rt rpc.url).sum)
    (hpri : ∀ rpc ∈ activeRPCs config, 0 < rpc.priority)
    (hlen : 2 ≤ (activeRPCs config).length)
    (hr0 : 0 ≤ r)
    (hrT : r < ((activeRPCs config).map (claimEffectiveWeight rt)).sum) :
    (∃ i, ∃ hi : i < (activeRPCs config).length,
      RPCSelectorPerf.selectRPC rt config r = some ((activeRPCs config).get ⟨i, hi⟩) ∧
      r ≤ (((activeRPCs config).map (claimEffectiveWeight rt)).take (i + 1)).sum ∧
      ∀ j, j < i → (((activeRPCs config).map (claimEffectiveWeight rt)).take (j + 1)).sum < r) ∧
    (∀ r2 : ℚ, ∃ e, e ∈ activeRPCs config ∧
      RPCSelectorPerf.selectRPC rt config r2 = some e) ∧
    (∀ r2 : ℚ, ((activeRPCs config).map (claimEffectiveWeight rt)).sum ≤ r2 →
      RPCSelectorPerf.selectRPC rt config r2 = (activeRPCs config).getLast?) := by
  have hmap : (activeRPCs config).map (RPCSelectorPerf.perfWeight rt) =
      (activeRPCs config).map (claimEffectiveWeight rt) :=
    List.map_congr_left (fun rpc hr => perfWeight_eq_claim rt rpc (hsam rpc hr))
  have hne : activeRPCs config ≠ [] := by
    intro hnil
    rw [hnil] at hlen
    simp at hlen
  refine ⟨?_, ?_, ?_⟩
  · obtain ⟨i, hi, hwalk, hub, hlb⟩ :=
      selectionWalk_first_reach (RPCSelectorPerf.perfWeight rt) (activeRPCs config) r hr0
        (by rw [hmap]; exact hrT)
    refine ⟨i, hi, ?_, ?_, ?_⟩
    · rw [selectRPCPerf_eq_weightedSelect rt config r hlen]
      unfold weightedSelect
      rw [hwalk]
    · rw [← hmap]; exact hub
    · intro j hj
      rw [← hmap]
      exact hlb j hj
  · intro r2
    obtain ⟨e, he, hsel⟩ :=
      weightedSelect_total (RPCSelectorPerf.perfWeight rt) (activeRPCs config) r2 hne
    exact ⟨e, he, by rw [selectRPCPerf_eq_weightedSelect rt config r2 hlen]; exact hsel⟩
  · intro r2 hr2
    rw [selectRPCPerf_eq_weightedSelect rt config r2 hlen]
    exact weightedSelect_fallback _ _ _
      (fun e he => perfWeight_pos rt e (hpri e he))
      (by rw [hmap]; exact hr2)

/-- Witness for the C1 theorem at a concrete two-endpoint configuration
with no recorded samples and the draw 1/2. -/
theorem selectRPC_cumulative_draw_witness :
    (∃ i, ∃ hi : i < (activeRPCs config2).length,
      RPCSelectorPerf.selectRPC rtEmpty config2 (1/2) =
        some ((activeRPCs config2).get ⟨i, hi⟩) ∧
      (1/2 : ℚ) ≤ (((activeRPCs config2).map (claimEffectiveWeight rtEmpty)).take (i + 1)).sum ∧
      ∀ j, j < i →
        (((activeRPCs config2).map (claimEffectiveWeight rtEmpty)).take (j + 1)).sum < 1/2) ∧
    (∀ r2 : ℚ, ∃ e, e ∈ activeRPCs config2 ∧
      RPCSelectorPerf.selectRPC rtEmpty config2 r2 = some e) ∧
    (∀ r2 : ℚ, ((activeRPCs config2).map (claimEffectiveWeight rtEmpty)).sum ≤ r2 →
      RPCSelectorPerf.selectRPC rtEmpty config2 r2 = (activeRPCs config2).getLast?) :=
  selectRPC_cumulative_draw rtEmpty config2 (1/2)
    (fun _ _ h => absurd rfl h)
    (by decide)
    (by decide)
    (by norm_num)
    (by norm_num [activeRPCs, config2, epA, epB, claimEffectiveWeight, rtEmpty])

/-- C2: with `maxRetries = 3` (the configured default) and upstream calls
that always fail, the retry loop performs exactly 4 upstream attempts
(initial + 3 retries), sleeps `RETRY_BASE_DELAY * 2^attempt` after each
failed attempt except the last (delays 1000, 2000, 4000 ms), and returns a
terminal network-error outcome carrying the last failure's message. -/
theorem proxyWithRetries_retry_bound (sel : ℕ → Option RPCEndpoint)
    (call : ℕ → RPCEndpoint → CallResult) (msg : ℕ → String)
    (hsel : ∀ i, (sel i).isSome)
    (hcall : ∀ i rpc, call i rpc = .fail (msg i)) :
    proxyWithRetries sel call DEFAULT_MAX_RETRIES =
      ⟨4, [1000, 2000, 4000], .networkError (msg 3), []⟩ := by
  obtain ⟨e0, h0⟩ := Option.isSome_iff_exists.mp (hsel 0)
  obtain ⟨e1, h1⟩ := Option.isSome_iff_exists.mp (hsel 1)
  obtain ⟨e2, h2⟩ := Option.isSome_iff_exists.mp (hsel 2)
  obtain ⟨e3, h3⟩ := Option.isSome_iff_exists.mp (hsel 3)
  simp [proxyWithRetries, DEFAULT_MAX_RETRIES, proxyLoop, h0, h1, h2, h3, hcall,
    RETRY_BASE_DELAY]

/-- Witness for the C2 theorem with a constant endpoint and failure. -/
theorem proxyWithRetries_retry_bound_witness :
    proxyWithRetries (fun _ => some epA) (fun _ _ => .fail "connection refused")
        DEFAULT_MAX_RETRIES =
      ⟨4, [1000, 2000, 4000], .networkError "connection refused", []⟩ :=
  proxyWithRetries_retry_bound (fun _ => some epA) (fun _ _ => .fail "connection refused")
    (fun _ => "connection refused") (fun _ => rfl) (fun _ _ => rfl)

/-- C9: `decompressFromCache` is total and never raises: input starting with
a raw JSON delimiter is returned unchanged; otherwise base64+gunzip is
attempted and any failure returns the raw stored string unchanged — the
result is always either the raw string or a successful decompression. -/
theorem decompressFromCache_never_raises (c : Codecs) (data : String) :
    ((strStartsWith data "\x7b" || strStartsWith data "[") = true →
        decompressFromCache c data = data) ∧
    ((strStartsWith data "\x7b" || strStartsWith data "[") = false →
        decompressFromCache c data = (c.gunzipB64 data).getD data) ∧
    (decompressFromCache c data = data ∨
      ∃ s, c.gunzipB64 data = some s ∧ decompressFromCache c data = s) := by
  unfold decompressFromCache
  by_cases h : (strStartsWith data "\x7b" || strStartsWith data "[") = true
  · refine ⟨fun _ => by rw [if_pos h], fun hf => ?_, Or.inl (by rw [if_pos h])⟩
    rw [hf] at h
    exact absurd h (by simp)
  · refine ⟨fun ht => absurd ht h, fun _ => ?_, ?_⟩
    · rw [if_neg h]
      cases hz : c.gunzipB64 data with
      | none => simp
      | some s => simp
    · rw [if_neg h]
      cases hz : c.gunzipB64 data with
      | none => exact Or.inl rfl
      | some s => exact Or.inr ⟨s, rfl, rfl⟩

/-- Witness for the C9 theorem at a brace-prefixed input and at an input
whose decompression fails. -/
theorem decompressFromCache_never_raises_witness :
    decompressFromCache codecSmall "\x7bx" = "\x7bx" ∧
    decompressFromCache codecSmall "zz" = ((codecSmall.gunzipB64 "zz").getD "zz") :=
  ⟨(decompressFromCache_never_raises codecSmall "\x7bx").1 (by decide),
   (decompressFromCache_never_raises codecSmall "zz").2.1 (by decide)⟩

theorem scanParamsForChainId_isSome (ps : List JSON) :
    (scanParamsForChainId ps).isSome = true := by
  induction ps with
  | nil => rfl
  | cons p rest ih =>
      simp only [scanParamsForChainId]
      split
      · split
        · simp
        · exact ih
      · exact ih

/-- C10: chain-id extraction is total and never returns null (every request
yields a path-, query-, params- or default-derived chain id), and the
dispatcher's chain-id-resolution rejection (`if (!chainId)`) fires exactly
when the extracted value is falsy — the number 0 or the empty string. -/
theorem extractChainId_total_falsy_guard (req : InboundRequest) (j : JSON) :
    ∃ c, extractChainId req j = some c ∧
      (resolutionRejects req j = true ↔ (c = .num 0 ∨ c = .str "")) := by
  have hfb : ∀ jj : JSON, (paramsChainFallback jj).isSome = true := by
    intro jj
    unfold paramsChainFallback
    split
    · exact scanParamsForChainId_isSome _
    · rfl
  have hsome : (extractChainId req j).isSome = true := by
    unfold extractChainId
    cases pathScan req.pathname.data with
    | some seg => rfl
    | none =>
        cases queryChainParam req with
        | some s =>
            by_cases hs : s ≠ ""
            · simp [hs]
            · simp [hs, hfb j]
        | none => simp [hfb j]
  obtain ⟨c, hc⟩ := Option.isSome_iff_exists.mp hsome
  refine ⟨c, hc, ?_⟩
  unfold resolutionRejects
  rw [hc]
  cases c <;> simp [chainIdFalsy]

/-- C5: a chain config with zero active endpoints makes `selectRPC` return
`none` for every draw (not an error), and the dispatcher answers with the
no-healthy-RPCs envelope before any cache lookup or upstream attempt. -/
theorem selectRPC_none_noHealthy (config : ChainConfig) (req : InboundRequest)
    (cid : ChainId) (getChainConfig : ChainId → Option ChainConfig)
    (cacheLookup : Option (String → Option JSON)) (sel : ℕ → Option RPCEndpoint)
    (call : ℕ → RPCEndpoint → CallResult)
    (hact : config.rpcs.filter (fun rpc => rpc.isActive) = [])
    (hval : isValidJSONRPC req.body = true)
    (hext : extractChainId req req.body = some cid)
    (hfal : chainIdFalsy cid = false)
    (hcfg : getChainConfig cid = some config) :
    (∀ random : ℚ, RPCSelector.selectRPC config random = none) ∧
    handleRequest req getChainConfig cacheLookup sel call =
      ⟨.noHealthyRPCs (idField req.body), 0, 0⟩ := by
  constructor
  · intro random
    unfold RPCSelector.selectRPC
    simp [hact]
  · have hres : resolutionRejects req req.body = false := by
      unfold resolutionRejects
      rw [hext]
      exact hfal
    unfold handleRequest
    simp [hval, hres, hext, hcfg, hact]

/-- Witness for the C5 theorem at a concrete one-endpoint inactive chain. -/
theorem selectRPC_none_noHealthy_witness :
    (∀ random : ℚ, RPCSelector.selectRPC configInactive random = none) ∧
    handleRequest reqChain1 (fun c => if c = .num 1 then some configInactive else none)
        none (fun _ => none) (fun _ _ => .fail "x") =
      ⟨.noHealthyRPCs (idField reqChain1.body), 0, 0⟩ :=
  selectRPC_none_noHealthy configInactive reqChain1 (.num 1)
    (fun c => if c = .num 1 then some configInactive else none)
    none (fun _ => none) (fun _ _ => .fail "x")
    (by decide) (by decide) (by decide) (by decide) (by decide)

theorem valid_eq_claimShape (j : JSON) : isValidJSONRPC j = claimAcceptedShape j := by
  cases j <;>
    simp [isValidJSONRPC, claimAcceptedShape, jsTruthy, jsIsObjectTyped, jsLookup, jsHasKey]

/-- C3 (amended): the dispatcher's validation accepts a body exactly when it
is an object with `jsonrpc == "2.0"`, a non-empty string `method`, and an
`id` key of type string, number or null — `params` is not inspected; any
failing body is answered with the invalid-request envelope before any
cache lookup or upstream call, echoing the original id when it is truthy
and `null` otherwise. -/
theorem isValidJSONRPC_amended (req : InboundRequest)
    (getChainConfig : ChainId → Option ChainConfig)
    (cacheLookup : Option (String → Option JSON)) (sel : ℕ → Option RPCEndpoint)
    (call : ℕ → RPCEndpoint → CallResult) :
    isValidJSONRPC req.body = claimAcceptedShape req.body ∧
    (isValidJSONRPC req.body = false →
      handleRequest req getChainConfig cacheLookup sel call =
        ⟨.invalidRequest (echoIdOrNull req.body), 0, 0⟩) := by
  refine ⟨valid_eq_claimShape req.body, fun h => ?_⟩
  unfold handleRequest
  simp [h]

/-- Witness for the C3 amended theorem at a concrete invalid request. -/
theorem isValidJSONRPC_amended_witness :
    isValidJSONRPC reqVersion1Id0.body = claimAcceptedShape reqVersion1Id0.body ∧
    handleRequest reqVersion1Id0 (fun _ => none) none (fun _ => none) (fun _ _ => .fail "e") =
      ⟨.invalidRequest (echoIdOrNull reqVersion1Id0.body), 0, 0⟩ :=
  ⟨(isValidJSONRPC_amended reqVersion1Id0 (fun _ => none) none (fun _ => none)
      (fun _ _ => .fail "e")).1,
   (isValidJSONRPC_amended reqVersion1Id0 (fun _ => none) none (fun _ => none)
      (fun _ _ => .fail "e")).2 (by decide)⟩

/-- C3 counterexample: a shape-valid body whose `params` is a non-array
object is accepted by the code although the claim requires rejection; and
an invalid body with the extractable id `0` is answered with id `null`,
not with the original id. -/
theorem isValidJSONRPC_claim_counterexample :
    (isValidJSONRPC bodyParamsObj = true ∧ claimC3Shape bodyParamsObj = false) ∧
    (jsLookup bodyVersion1Id0 "id" = some (.num 0) ∧
      handleRequest reqVersion1Id0 (fun _ => none) none (fun _ => none) (fun _ _ => .fail "e") =
        ⟨.invalidRequest .null, 0, 0⟩) :=
  ⟨⟨by decide, by decide⟩, ⟨rfl, rfl⟩⟩

/-- C4 evaluation: a run of the proxy loop whose first upstream attempt
succeeds records no latency sample (the loop contains no call to
`recordResponseTime`), while `recordResponseTime` itself would have
appended the observed sample to the endpoint's window. -/
theorem proxy_success_records_no_sample :
    proxyWithRetries (fun _ => some epA) (fun _ _ => .ok "body") DEFAULT_MAX_RETRIES =
      ⟨1, [], .success "body", []⟩ ∧
    RPCSelectorPerf.recordResponseTime rtEmpty epA.url 42 epA.url = [42] :=
  ⟨rfl, by decide⟩

/-- C6 counterexample: at the exact boundary instant
`timestamp + ttl*1000 = now` (entry written at 0 with ttl 1s, read at
1000 ms) the code still returns the stored payload, although the claim
says the entry is expired once `timestamp + ttl*1000 ≤ now`. -/
theorem cacheGet_boundary_counterexample :
    (entry1s.timestamp + entry1s.ttl * 1000 ≤ 1000) ∧
    (cacheGet codecSmall storeE1 1000 "k").1 = some (.str "payload") :=
  ⟨by decide, rfl⟩

/-- C6 (amended): an entry is treated as expired exactly when
`timestamp + ttl*1000 < now` holds strictly: such a read actively deletes
the entry and reports a miss, while a read at or before the boundary
instant returns the stored payload unchanged. -/
theorem cacheGet_strict_expiry (c : Codecs) (store : KVStore) (now : ℕ) (key : String)
    (record : KVRecord) (entry : CacheEntry)
    (hrec : store (cacheFullKey key) = some record)
    (hne : record.value ≠ "")
    (hdec : c.parseEntry
        (if record.compressed then decompressFromCache c record.value else record.value) =
      some entry) :
    (entry.timestamp + entry.ttl * 1000 < now →
      cacheGet c store now key = (none, kvDelete store (cacheFullKey key))) ∧
    (¬ (entry.timestamp + entry.ttl * 1000 < now) →
      cacheGet c store now key = (some entry.data, store)) := by
  constructor
  · intro h
    unfold cacheGet
    simp [hrec, hne, hdec, h]
  · intro h
    unfold cacheGet
    simp [hrec, hne, hdec, h]

/-- Witness for the C6 amended theorem: the stored 1s entry is expired and
deleted at 5000 ms, and returned unchanged at 500 ms. -/
theorem cacheGet_strict_expiry_witness :
    cacheGet codecSmall storeE1 5000 "k" = (none, kvDelete storeE1 (cacheFullKey "k")) ∧
    cacheGet codecSmall storeE1 500 "k" = (some (.str "payload"), storeE1) :=
  ⟨(cacheGet_strict_expiry codecSmall storeE1 5000 "k" ⟨"E1", false, 1⟩ entry1s rfl
      (by decide) rfl).1 (by decide),
   (cacheGet_strict_expiry codecSmall storeE1 500 "k" ⟨"E1", false, 1⟩ entry1s rfl
      (by decide) rfl).2 (by decide)⟩

/-- C7: a successful response to the non-whitelisted
`eth_sendRawTransaction` is never written to the cache; a successful
`eth_blockNumber` response (valid JSON-RPC shape, falsy `error` field,
cache configured) is written through with the method-specific TTL of 5
seconds; and any method absent from the TTL map falls back to the global
default TTL. -/
theorem cache_whitelist_ttl (c : Codecs) (store : KVStore) (now : ℕ) (chainId : ChainId)
    (request response : JSON) :
    (methodField request = "eth_sendRawTransaction" →
      ∀ cacheConfigured,
        makeRPCCallCacheStep c store now cacheConfigured chainId request response =
          some store) ∧
    (methodField request = "eth_blockNumber" →
      paramsOrEmpty request = .arr [] →
      jsLookup response "jsonrpc" = some (.str "2.0") →
      jsHasKey response "id" = true →
      jsTruthy ((jsLookup response "error").getD .null) = false →
      makeRPCCallCacheStep c store now true chainId request response =
        some (cacheSet c store now ("rpc:" ++ (chainIdToString chainId ++ ":" ++ "eth_blockNumber"))
          response 5) ∧
      ((cacheSet c store now ("rpc:" ++ (chainIdToString chainId ++ ":" ++ "eth_blockNumber"))
            response 5)
          (cacheFullKey ("rpc:" ++ (chainIdToString chainId ++ ":" ++ "eth_blockNumber")))).map
        (fun rec => rec.expirationTtl) = some 5) ∧
    (∀ m, rpcTTLMap.find? (fun e => e.1 == m) = none →
      getRPCCacheTTL m = CACHE_DEFAULT_TTL) := by
  refine ⟨?_, ?_, ?_⟩
  · intro hm cacheConfigured
    unfold makeRPCCallCacheStep cacheRPCResponse
    rw [hm]
    repeat' split
    all_goals first
      | rfl
      | exact absurd
          (by decide : ¬ (cacheableMethods.contains "eth_sendRawTransaction" = true))
          (by assumption)
  · intro hm hp hj hid herr
    have hc : cacheableMethods.contains "eth_blockNumber" = true := by decide
    have httl : getRPCCacheTTL "eth_blockNumber" = 5 := by decide
    constructor
    · unfold makeRPCCallCacheStep cacheRPCResponse
      rw [hm, hp, hj, hid, herr]
      simp [hc, rpcCacheKey, generateCacheKey, httl]
      intro hmem
      exact absurd (by decide : "eth_blockNumber" ∈ cacheableMethods) hmem
    · unfold cacheSet kvPut
      simp
  · intro m hm
    unfold getRPCCacheTTL
    rw [hm]
    rfl

/-- Witness for the C7 theorem: a send-raw-transaction response is not
written, an eth_blockNumber response is written with TTL 5, and a method
outside the TTL map gets the default TTL. -/
theorem cache_whitelist_ttl_witness :
    (makeRPCCallCacheStep codecSmall emptyStore 0 true (.num 1) request7raw response7 =
      some emptyStore) ∧
    (makeRPCCallCacheStep codecSmall emptyStore 0 true (.num 1) request7 response7 =
      some (cacheSet codecSmall emptyStore 0
        ("rpc:" ++ (chainIdToString (.num 1) ++ ":" ++ "eth_blockNumber")) response7 5)) ∧
    getRPCCacheTTL "eth_sendRawTransaction" = CACHE_DEFAULT_TTL :=
  ⟨(cache_whitelist_ttl codecSmall emptyStore 0 (.num 1) request7raw response7).1 rfl true,
   ((cache_whitelist_ttl codecSmall emptyStore 0 (.num 1) request7 response7).2.1
      rfl rfl rfl (by decide) rfl).1,
   (cache_whitelist_ttl codecSmall emptyStore 0 (.num 1) request7 response7).2.2
      "eth_sendRawTransaction" (by decide)⟩

/-- C8: `set(key, value, ttl)` immediately followed by `get(key)` at the
same clock instant returns the value unchanged (given the platform
round-trip of JSON serialization and gzip+base64 on this entry), and the
record is stored gzip+base64-compressed with the `compressed` flag exactly
when the serialized entry reaches the 1024-byte threshold, else stored
uncompressed. -/
theorem cacheSet_get_roundtrip (c : Codecs) (store : KVStore) (now : ℕ) (key : String)
    (value : JSON) (ttl : ℕ) (httl : 0 < ttl)
    (hne : (if shouldCompress (c.stringifyEntry ⟨value, now, ttl⟩) then
          c.gzipB64 (c.stringifyEntry ⟨value, now, ttl⟩)
        else c.stringifyEntry ⟨value, now, ttl⟩) ≠ "")
    (hdec : c.parseEntry
        (if shouldCompress (c.stringifyEntry ⟨value, now, ttl⟩) then
          decompressFromCache c (c.gzipB64 (c.stringifyEntry ⟨value, now, ttl⟩))
        else c.stringifyEntry ⟨value, now, ttl⟩) = some ⟨value, now, ttl⟩) :
    (cacheGet c (cacheSet c store now key value ttl) now key).1 = some value ∧
    (shouldCompress (c.stringifyEntry ⟨value, now, ttl⟩) = true →
      (cacheSet c store now key value ttl) (cacheFullKey key) =
        some ⟨c.gzipB64 (c.stringifyEntry ⟨value, now, ttl⟩), true, ttl⟩) ∧
    (shouldCompress (c.stringifyEntry ⟨value, now, ttl⟩) = false →
      (cacheSet c store now key value ttl) (cacheFullKey key) =
        some ⟨c.stringifyEntry ⟨value, now, ttl⟩, false, ttl⟩) := by
  have httl0 : ¬ (ttl = 0) := Nat.pos_iff_ne_zero.mp httl
  have hexp : ¬ (now + ttl * 1000 < now) := by omega
  by_cases hc : shouldCompress (c.stringifyEntry ⟨value, now, ttl⟩) = true
  · rw [if_pos hc] at hdec
    rw [if_pos hc] at hne
    refine ⟨?_, fun _ => ?_, fun hf => absurd hc (by rw [hf]; simp)⟩
    · unfold cacheGet cacheSet kvPut compressForCache
      simp [httl0, hc, hne, hdec, hexp]
    · unfold cacheSet kvPut compressForCache
      simp [httl0, hc]
  · have hcf : shouldCompress (c.stringifyEntry ⟨value, now, ttl⟩) = false := by
      cases hx : shouldCompress (c.stringifyEntry ⟨value, now, ttl⟩) with
      | false => rfl
      | true => exact absurd hx hc
    rw [if_neg hc] at hdec
    rw [if_neg hc] at hne
    refine ⟨?_, fun ht => absurd ht hc, fun _ => ?_⟩
    · unfold cacheGet cacheSet kvPut
      simp [httl0, hcf, hne, hdec, hexp]
    · unfold cacheSet kvPut
      simp [httl0, hcf]

/-- Witness for the C8 theorem: the round-trip at a concrete key/value with
ttl 60, once through the uncompressed path (2-byte serialization) and once
through the compressed path (1024-byte serialization). -/
theorem cacheSet_get_roundtrip_witness :
    (cacheGet codecSmall (cacheSet codecSmall emptyStore 0 "k" .null 60) 0 "k").1 =
      some .null ∧
    (cacheGet codecLarge (cacheSet codecLarge emptyStore 0 "k" .null 60) 0 "k").1 =
      some .null :=
  ⟨(cacheSet_get_roundtrip codecSmall emptyStore 0 "k" .null 60 (by decide) (by decide) rfl).1,
   (cacheSet_get_roundtrip codecLarge emptyStore 0 "k" .null 60 (by decide) (by decide) rfl).1⟩
